import Mathlib

/-!
Shallow embedding of the core of the `indielisboa-webapi` repository
(sale-creation transaction, stock bulk-update, authentication/refresh-token
rotation, authorization gate), with theorems settling the specification
claims about it.

Source files embedded:
* `src/security/authorization.ts` (role bitmasks, `hasRolePrivileges`, `jwtValidator`)
* `src/sales/salesController.ts` (`createSale`)
* `src/products/productsController.ts` (`updateProductstock`, category creation)
* `src/products/stockModel.ts` (stock rows, `min 0` validator)
* `src/security/authController.ts` (`login`, `logout`, `refresh`)
* `src/common/errors.ts` (error classes and their HTTP status mapping)
-/

namespace IndieLisboa

/-! ## Authorization gate (`src/security/authorization.ts`) -/

/-- The `Role` enum of `src/security/authorization.ts` (string values
`"basic"`, `"seller"`, `"manager"`, `"admin"`). -/
inductive Role where
  | basic
  | seller
  | manager
  | admin
deriving DecidableEq, Repr, Fintype

/-- The string value carried by each `Role` enum member. -/
def Role.toString : Role → String
  | .basic => "basic"
  | .seller => "seller"
  | .manager => "manager"
  | .admin => "admin"

/-- The `roleValue` bitmask table of `src/security/authorization.ts`
(lines 32–37): basic=0x00, seller=0x01, manager=0x0F, admin=0xFF. -/
def roleValue : Role → Nat
  | .basic => 0x00
  | .seller => 0x01
  | .manager => 0x0F
  | .admin => 0xFF

/-- `hasRolePrivileges` of `src/security/authorization.ts` (lines 137–141),
specialised to inputs that are actual members of the `Role` enum:
`(actual & target) === target` on the bitmasks. -/
def hasRolePrivileges (actualRole targetRole : Role) : Bool :=
  let target := roleValue targetRole
  let actual := roleValue actualRole
  (actual &&& target) == target

/-! ### JavaScript-faithful version, for the `jwtValidator` scope handling.

`jwtValidator` calls `hasRolePrivileges(role, scopes[0] as Role)` where
`scopes[0]` may be `undefined` (empty scope list); the `as Role` cast is
erased at runtime, so the function really receives `string | undefined`.
The following definitions model the JavaScript evaluation of
`roleValue[key]`, `x & y` and `x === y` on such inputs. -/

/-- JavaScript property lookup `roleValue[key]` for a string key:
`undefined` (`none`) when the key is not one of the four role strings. -/
def roleValueOfString : String → Option Nat
  | "basic" => some 0x00
  | "seller" => some 0x01
  | "manager" => some 0x0F
  | "admin" => some 0xFF
  | _ => none

/-- JavaScript property lookup `roleValue[key]` when the key itself may be
`undefined` (an `undefined` key stringifies to `"undefined"`, which is not
in the table, so the result is `undefined`). -/
def roleValueJS : Option String → Option Nat
  | none => none
  | some s => roleValueOfString s

/-- JavaScript `ToInt32` as applied by the `&` operator to a possibly
`undefined` operand: `ToInt32(undefined) = ToInt32(NaN) = 0`; the table
values (0x00..0xFF) pass through unchanged. -/
def jsToInt32 : Option Nat → Nat
  | none => 0
  | some n => n

/-- JavaScript strict equality `m === t` between the (number) result of a
`&` expression and a possibly `undefined` value: `number === undefined` is
always `false`; two numbers compare numerically. -/
def jsStrictEqNum (m : Nat) : Option Nat → Bool
  | none => false
  | some n => m == n

/-- `hasRolePrivileges` of `src/security/authorization.ts` (lines 137–141)
as JavaScript executes it on raw inputs: the target role may be
`undefined` (when `jwtValidator` indexes an empty scope array), in which
case `roleValue[target]` is `undefined`, `actual & undefined` evaluates to
`actual & 0 = 0`, and `0 === undefined` is `false`. -/
def hasRolePrivilegesJS (actualRole : String) (targetRole : Option String) : Bool :=
  let target := roleValueJS targetRole
  let actual := roleValueOfString actualRole
  jsStrictEqNum (jsToInt32 actual &&& jsToInt32 target) target

/-- Result of the `jwtValidator` middleware of
`src/security/authorization.ts` (lines 97–128): either the request is
allowed (with `request.auth` set to the decoded userId and role), or an
`AuthenticationError` / `AuthorizationError` is raised. -/
inductive JwtValidationResult where
  | allow (userId role : String)
  | authenticationError (message : String)
  | authorizationError (message : String)
deriving DecidableEq, Repr

/-- The JavaScript expression `scopes == []` (line 120): loose equality
between the `scopes` array and a freshly allocated array literal compares
object references, and a fresh literal is never the same reference as an
existing array, so the test is `false` for every array `scopes`. -/
def jsEqFreshEmptyArray (_scopes : List String) : Bool := false

/-- `jwtValidator` of `src/security/authorization.ts` (lines 97–128).
`verify` models `jwt.verify` with the configured secret: `none` means the
signature check failed, `some (userId, role)` is the decoded payload.
`cookie?` is `request.cookies[cookieName]`; `scopes?` is the
possibly-absent scope list registered for the route. -/
def jwtValidator (verify : String → Option (String × String))
    (cookie? : Option String) (scopes? : Option (List String)) :
    JwtValidationResult :=
  match cookie? with
  | none => .authenticationError "Missing an authentication token (jwt)."
  | some token =>
    match verify token with
    | none => .authenticationError "Invalid authentication token (jwt)"
    | some (userId, role) =>
      match scopes? with
      | none => .allow userId role
      | some scopes =>
        if jsEqFreshEmptyArray scopes then .allow userId role
        else if hasRolePrivilegesJS role scopes.head? then .allow userId role
        else .authorizationError "Not enough privileges for this action."

/-- Coherence: on inputs that are genuine `Role` strings, the
JavaScript-faithful privilege check agrees with the typed one. -/
theorem hasRolePrivilegesJS_coe (a r : Role) :
    hasRolePrivilegesJS a.toString (some r.toString) = hasRolePrivileges a r := by
  cases a <;> cases r <;> rfl

/-! ## Application errors (`src/common/errors.ts`)

The application error classes (`BadRequestError`, `AuthenticationError`,
`ForbiddenError`, `NotFoundError`, `ConflitError` [sic]) all extend
`SimpleError`, which carries an optional `code` (defaulting to
`ErrorCode.UNSPECIFIED`), an optional `message` and optional `fields`.
`requestErrorHandler` maps each class to an HTTP status and serialises the
error into the `{status, error: {code, message, fields?}}` envelope. -/

/-- The `ErrorCode` / `AppErrorCode` enum of `src/common/errors.ts` (the
sales/products revision adds `NOT_FOUND`, used by `updateProductstock`). -/
inductive ErrCode where
  | unspecified
  | tokenMissing
  | tokenExpired
  | tokenInvalid
  | privilege
  | reqSyntax
  | reqFormat
  | reqData
  | notFound
deriving DecidableEq, Repr

/-- The error class names (`SimpleError` subclasses) of
`src/common/errors.ts`, which determine the HTTP status chosen by
`requestErrorHandler`. -/
inductive ErrName where
  | badRequest
  | authentication
  | forbidden
  | notFound
  | conflit
deriving DecidableEq, Repr

/-- One field entry of a tsoa `FieldErrors` object: field name, message,
offending value (stringified). -/
structure FieldError where
  field : String
  message : String
  value : String
deriving DecidableEq, Repr

/-- A `SimpleError` subclass instance of `src/common/errors.ts`: the
constructor stores `message` and `fields` as given (possibly absent) and
defaults `code` to `ErrorCode.UNSPECIFIED`. -/
structure AppError where
  name : ErrName
  code : ErrCode := .unspecified
  message : Option String := none
  fields : List FieldError := []
deriving DecidableEq, Repr

/-- `new NotFoundError()` with no arguments, as thrown by `login`
(`src/security/authController.ts` line 78): code defaults to
`UNSPECIFIED`, no message, no fields. -/
def notFoundErrorDefault : AppError := { name := .notFound }

/-- `new ForbiddenError()` with no arguments, as thrown by `refresh`
(`src/security/authController.ts` line 200). -/
def forbiddenErrorDefault : AppError := { name := .forbidden }

/-- The HTTP status `requestErrorHandler` (`src/common/errors.ts`) sends
for each error class: 400 / 401 / 403 / 404 / 409. -/
def httpStatusOf : ErrName → Nat
  | .badRequest => 400
  | .authentication => 401
  | .forbidden => 403
  | .notFound => 404
  | .conflit => 409

/-- The serialised `{status, error: {code, message, fields}}` body built
by `requestErrorHandler` of `src/common/errors.ts`. -/
structure ErrorResponse where
  status : Nat
  code : ErrCode
  message : Option String
  fields : List FieldError
deriving DecidableEq, Repr

/-- Serialisation of an application error by `requestErrorHandler`. -/
def errorResponseOf (e : AppError) : ErrorResponse :=
  { status := httpStatusOf e.name
    code := e.code
    message := e.message
    fields := e.fields }

/-! ## Authentication / session engine (`src/security/authController.ts`)

`User` rows (`src/common/model.ts`, `UserModel`): userId (PK, unique),
username (unique), password (salted hash), role, nullable refresh `token`
and its nullable `tokenExpiresDate`.

The helpers `randomToken`, `getNowAfterSeconds`, `hasDateExpired` and
`validateData` live in `src/utils/crypto.ts`, which is not part of the
snapshot; they are modelled from the spec where they matter (see each
definition). Time is modelled as seconds since the epoch (`Nat`). -/

/-- A `User` row (`UserModel` of `src/common/model.ts`). `password` is the
stored salted hash. -/
structure UserRow where
  userId : String
  username : String
  password : String
  role : Role
  token : Option String
  tokenExpiresDate : Option Nat
deriving DecidableEq, Repr

/-- The users table. -/
abbrev UsersDB := List UserRow

/-- Modelled from the spec: `getNowAfterSeconds` (missing
`src/utils/crypto.ts`) — "computes its expiry as now + a configured TTL". -/
def getNowAfterSeconds (now seconds : Nat) : Nat := now + seconds

/-- Modelled from the spec: `hasDateExpired` (missing
`src/utils/crypto.ts`) — true iff the stored expiry "has passed" at the
current time; a null date is treated as expired, matching the fail-closed
reading ("presenting a stale or already-rotated refresh token fails
closed"). -/
def hasDateExpired (now : Nat) : Option Nat → Bool
  | none => true
  | some d => d < now

/-- A `Set-Cookie` issued by `setAccessCookie` / `setRefreshCookie`
(`src/security/authController.ts` lines 229–239): both cookies use
`path=/`, `secure`, `httpOnly` and `maxAge = refreshExpires * 1000`. -/
structure SetCookie where
  name : String
  value : String
  maxAgeMs : Nat
deriving DecidableEq, Repr

/-- The configured access-token cookie name (`config.accessCookie`;
`config.json` is not in the snapshot, the concrete name is irrelevant to
the claims). -/
def accessCookieName : String := "accessToken"

/-- The configured refresh-token cookie name (`config.refreshCookie`). -/
def refreshCookieName : String := "refreshToken"

/-- Payload and outcome of a successful `login` / `refresh`: the access
cookie carries the signed JWT for `{userId, role}`, the refresh cookie the
opaque refresh token; both live for `refreshExpires * 1000` ms
(deliberately: the access cookie outlives the signed expiry). -/
structure AuthSuccess where
  userId : String
  accessCookie : SetCookie
  refreshCookie : SetCookie
deriving DecidableEq, Repr

/-- `login` of `src/security/authController.ts` (lines 48–99).

* `checkPassword` models `validateData` of the missing
  `src/utils/crypto.ts` — modelled from the spec: constant-time comparison
  of the supplied password against the stored salted hash, `true` iff it
  matches.
* `sign` models `jwt.sign` of the access payload `(userId, role)`.
* `freshToken` models the result of `randomToken()` for this call.

Inside a repeatable-read transaction: find the user by username; if
absent, or the password does not match, the callback returns null and the
controller rejects with `new NotFoundError()` (same error object in both
cases), leaving the table untouched. Otherwise the user row's `token` /
`tokenExpiresDate` are overwritten and both cookies are set. -/
def login (checkPassword : String → String → Bool)
    (sign : String → Role → String) (freshToken : String)
    (now refreshExpires : Nat) (username password : String) (db : UsersDB) :
    Except AppError AuthSuccess × UsersDB :=
  match List.find? (fun u => u.username == username) db with
  | none => (.error notFoundErrorDefault, db)
  | some user =>
    if !(checkPassword password user.password) then
      (.error notFoundErrorDefault, db)
    else
      let expiresDate := getNowAfterSeconds now refreshExpires
      let db1 : UsersDB := db.map (fun u =>
        if u.userId == user.userId then
          { u with token := some freshToken, tokenExpiresDate := some expiresDate }
        else u)
      let maxAge := refreshExpires * 1000
      (.ok { userId := user.userId
             accessCookie :=
               { name := accessCookieName
                 value := sign user.userId user.role
                 maxAgeMs := maxAge }
             refreshCookie :=
               { name := refreshCookieName
                 value := freshToken
                 maxAgeMs := maxAge } },
       db1)

/-- `refresh` of `src/security/authController.ts` (lines 157–216).

* `verify` models `jwt.verify(accessToken, accessSecret,
  {ignoreExpiration: true})`: `none` iff the signature is invalid.
* `freshToken` models `randomToken()` for this call.

Both cookies must be present (else `AuthenticationError`). An invalid
access-token signature yields `ForbiddenError` with code `TOKEN_INVALID`.
Then, in a repeatable-read transaction, the user is looked up by
`(userId, token == suppliedRefreshToken)`; no match, or an expired stored
date, rejects with `new ForbiddenError()` and writes nothing. On success
the stored token and expiry are overwritten and both cookies reset. -/
def refresh (verify : String → Option (String × Role))
    (sign : String → Role → String) (freshToken : String)
    (now refreshExpires : Nat)
    (accessToken? refreshToken? : Option String) (db : UsersDB) :
    Except AppError AuthSuccess × UsersDB :=
  match accessToken?, refreshToken? with
  | none, _ => (.error { name := .authentication }, db)
  | some _, none => (.error { name := .authentication }, db)
  | some accessToken, some refreshToken =>
    match verify accessToken with
    | none =>
      (.error { name := .forbidden, code := .tokenInvalid,
                message := some "Invalid access token." }, db)
    | some (userId, _role) =>
      match List.find? (fun u => u.userId == userId && u.token == some refreshToken) db with
      | none => (.error forbiddenErrorDefault, db)
      | some user =>
        if hasDateExpired now user.tokenExpiresDate then
          (.error forbiddenErrorDefault, db)
        else
          let expiresDate := getNowAfterSeconds now refreshExpires
          let db1 : UsersDB := db.map (fun u =>
            if u.userId == user.userId then
              { u with token := some freshToken, tokenExpiresDate := some expiresDate }
            else u)
          let maxAge := refreshExpires * 1000
          (.ok { userId := user.userId
                 accessCookie :=
                   { name := accessCookieName
                     value := sign user.userId user.role
                     maxAgeMs := maxAge }
                 refreshCookie :=
                   { name := refreshCookieName
                     value := freshToken
                     maxAgeMs := maxAge } },
           db1)

/-- Outcome of `logout`: the HTTP status (always 204, the declared
`SuccessResponse`), the names of the cookies cleared, and the resulting
users table. There is no error constructor: every failure path is
swallowed by the `try/catch`. -/
structure LogoutOutcome where
  status : Nat
  clearedCookies : List String
  db : UsersDB

/-- `logout` of `src/security/authController.ts` (lines 109–143).

* `decode` models the `verifyToken(accessToken, accessSecret,
  {ignoreExpiration: true})` call returning the payload userId; `none`
  covers a missing cookie or an undecodable token (the rejection is caught).
* `storageOk = false` models a storage failure inside the transaction:
  the transaction is rolled back and the error swallowed by the `catch`.

In every case the controller finishes by clearing both cookies and
returning the 204 success; when the token decodes to an existing user and
storage works, that user's stored token and expiry are set to null. -/
def logout (decode : String → Option String) (storageOk : Bool)
    (accessToken? : Option String) (db : UsersDB) : LogoutOutcome :=
  let db1 : UsersDB :=
    match accessToken? with
    | none => db
    | some accessToken =>
      match decode accessToken with
      | none => db
      | some userId =>
        if storageOk then
          match List.find? (fun u => u.userId == userId) db with
          | none => db
          | some _ =>
            db.map (fun u =>
              if u.userId == userId then
                { u with token := none, tokenExpiresDate := none }
              else u)
        else db
  { status := 204
    clearedCookies := [accessCookieName, refreshCookieName]
    db := db1 }

/-! ## Sale transaction engine and stock ledger
(`src/sales/salesController.ts`, `src/products/productsController.ts`,
`src/products/stockModel.ts`) -/

/-- One entry of the `list` body field of `POST /sales`
(`SaleListItem` of `src/sales/salesController.ts`): a productId and a
quantity (route-validated `@isInt @minimum 1`). Quantities are `Int`
(JavaScript numbers), the route bound is a hypothesis where needed. -/
structure SaleListItem where
  productId : String
  quantity : Int
deriving DecidableEq, Repr

/-- A `Stock` row (`src/products/stockModel.ts`): composite primary key
`(productId, locationId)`, integer `quantity` with an application-level
`min 0` validator. -/
structure StockRow where
  productId : String
  locationId : String
  quantity : Int
deriving DecidableEq, Repr

/-- Modelled from the spec: `SaleStatus` of the missing
`src/sales/saleModel.ts` — "status (e.g. completed)"; `createSale` only
ever writes `COMPLETED`. -/
inductive SaleStatus where
  | completed
deriving DecidableEq, Repr

/-- Modelled from the spec: a `Sale` row of the missing
`src/sales/saleModel.ts` — "identifier, seller reference (user), location
reference, status". The generated UUID primary key is modelled as a
`Nat` drawn from a per-database counter (see `SalesDB.nextSaleId`). -/
structure SaleRow where
  saleId : Nat
  sellerId : String
  locationId : String
  status : SaleStatus
deriving DecidableEq, Repr

/-- Modelled from the spec: a `SaleItem` row of the missing
`src/sales/saleItemModel.ts` — "(saleId, productId, quantity ≥ 1)". -/
structure SaleItemRow where
  saleId : Nat
  productId : String
  quantity : Int
deriving DecidableEq, Repr

/-- The relational state touched by the sale-transaction engine and the
stock bulk-update: the stock ledger, the sale and sale-item tables, the
product and location key sets (for `Product.findByPk` and the
`locationId` foreign key on `stock`), and the fresh-id counter standing
for the store's UUID generator. -/
structure SalesDB where
  stock : List StockRow
  sales : List SaleRow
  saleItems : List SaleItemRow
  products : List String
  locations : List String
  nextSaleId : Nat
deriving DecidableEq, Repr

/-- JavaScript `Array.prototype.lastIndexOf`: index of the last occurrence
of `x`, `-1` if absent. -/
def jsLastIndexOf : List String → String → Int
  | [], _ => -1
  | a :: rest, x =>
    let r := jsLastIndexOf rest x
    if r ≥ 0 then r + 1
    else if a == x then 0 else -1

/-- JavaScript `Array.prototype.some` with the element index passed to the
callback, starting at index `i`. -/
def jsSomeWithIdx (f : String → Nat → Bool) : List String → Nat → Bool
  | [], _ => false
  | a :: rest, i => f a i || jsSomeWithIdx f rest (i + 1)

/-- The duplicate test `ids.some((id, idx) => ids.lastIndexOf(id) != idx)`
used by `createSale` (`src/sales/salesController.ts` line 149) and
`updateProductstock` (`src/products/productsController.ts` line 641). -/
def jsHasDuplicates (ids : List String) : Bool :=
  jsSomeWithIdx (fun id idx => jsLastIndexOf ids id != (idx : Int)) ids 0

/-- The in-place mutation `stock.quantity -= item.quantity` performed on
the row returned by `stockResult.find(...)`: the first row with the given
productId is decremented, the rest of the list is untouched. -/
def decrementFirst (pid : String) (q : Int) : List StockRow → List StockRow
  | [] => []
  | s :: rest =>
    if s.productId == pid then { s with quantity := s.quantity - q } :: rest
    else s :: decrementFirst pid q rest

/-- The `list.every(...)` validation loop of `createSale`
(`src/sales/salesController.ts` lines 169–176): for each item, find its
stock row in the (already location-filtered) `stockResult`; missing row or
insufficient quantity fails the whole loop; otherwise the row is
decremented in memory and the loop continues. Returns the mutated
`stockResult` on success. -/
def validateAndDecrement : List SaleListItem → List StockRow → Option (List StockRow)
  | [], stocks => some stocks
  | item :: rest, stocks =>
    match List.find? (fun s => s.productId == item.productId) stocks with
    | none => none
    | some s =>
      if s.quantity < item.quantity then none
      else validateAndDecrement rest (decrementFirst item.productId item.quantity stocks)

/-- One step of `Stock.bulkCreate(..., {updateOnDuplicate: ["quantity"]})`:
upsert `row` by its composite primary key — overwrite the quantity of the
existing `(productId, locationId)` row, or insert the row if absent. -/
def upsertQuantity (row : StockRow) : List StockRow → List StockRow
  | [] => [row]
  | s :: rest =>
    if s.productId == row.productId && s.locationId == row.locationId then
      { s with quantity := row.quantity } :: rest
    else s :: upsertQuantity row rest

/-- `Stock.bulkCreate(rows, {updateOnDuplicate: ["quantity"]})`: upsert
every row in order. -/
def bulkUpsertQuantity (rows : List StockRow) (stock : List StockRow) : List StockRow :=
  rows.foldl (fun acc r => upsertQuantity r acc) stock

/-- Storage events, recording which persistence operations an endpoint
performed (used to state "rejected before any storage access"). -/
inductive StorageEvent where
  | txnBegin
  | readStock
  | readProduct
  | writeSale
  | writeSaleItems
  | writeStock
deriving DecidableEq, Repr

/-- Result of `POST /sales` (`createSale`): 201 with the new saleId, a
400 `BadRequestError`, or a 409 `ConflitError`. -/
inductive SaleResult where
  | created (status : Nat) (saleId : Nat)
  | rejected (error : AppError)
deriving DecidableEq, Repr

/-- `createSale` of `src/sales/salesController.ts` (lines 140–218).

The duplicate-productId sanity check runs before the transaction; a
duplicate rejects with `BadRequestError` (code `REQ_FORMAT`) and no
storage access. Otherwise a repeatable-read transaction reads all stock
rows matching `(productId in items, locationId)`, validates and
decrements them in memory (`validateAndDecrement`); an invalid list makes
the callback return null (no writes) and the controller rejects with a
409 `ConflitError`. A valid list creates the `Sale` row (status
COMPLETED), bulk-creates the `SaleItem` rows and bulk-upserts the
decremented stock rows. Returns the result, the resulting state, and the
trace of storage events. -/
def createSale (sellerId locationId : String) (list : List SaleListItem)
    (db : SalesDB) : SaleResult × SalesDB × List StorageEvent :=
  let productIds := list.map (fun item => item.productId)
  if jsHasDuplicates productIds then
    (.rejected { name := .badRequest, code := .reqFormat,
                 message := some "Repeated productId not allowed." },
     db, [])
  else
    let stockResult := db.stock.filter
      (fun s => productIds.contains s.productId && s.locationId == locationId)
    match validateAndDecrement list stockResult with
    | none =>
      (.rejected { name := .conflit,
                   message := some "Can\x27t create sale. Either a product doesn\x27t exist or doesn\x27t have enough stock at this location." },
       db, [.txnBegin, .readStock])
    | some outStocks =>
      let saleId := db.nextSaleId
      let sale : SaleRow :=
        { saleId := saleId, sellerId := sellerId, locationId := locationId,
          status := .completed }
      let items : List SaleItemRow := list.map (fun item =>
        { saleId := saleId, productId := item.productId, quantity := item.quantity })
      let db1 : SalesDB :=
        { db with
          sales := db.sales ++ [sale]
          saleItems := db.saleItems ++ items
          stock := bulkUpsertQuantity outStocks db.stock
          nextSaleId := db.nextSaleId + 1 }
      (.created 201 saleId, db1,
       [.txnBegin, .readStock, .writeSale, .writeSaleItems, .writeStock])

/-- One entry of the `list` body field of `PATCH /products/{id}/stock`
(`ProductStock` of `src/products/productsController.ts`): an absolute
quantity for one location. -/
structure StockUpdateItem where
  locationId : String
  quantity : Int
deriving DecidableEq, Repr

/-- Result of `PATCH /products/{id}/stock` (`updateProductstock`):
204 no-content, or a rejected application error. -/
inductive UpdateStockResult where
  | noContent (status : Nat)
  | rejected (error : AppError)
deriving DecidableEq, Repr

/-- `updateProductstock` of `src/products/productsController.ts`
(lines 633–692).

The duplicate-locationId sanity check runs before the transaction; a
duplicate rejects with `BadRequestError` (code `REQ_FORMAT`) and no
storage access. Otherwise a repeatable-read transaction looks the product
up by primary key — absent yields a 404 `NotFoundError` (code
`NOT_FOUND`, with a field entry for `productId`) and no write — and then
bulk-upserts the absolute quantities of the request. An unknown
`locationId` violates the foreign key on `stock.locationId`; the thrown
`ForeignKeyConstraintError` aborts (rolls back) the transaction and is
translated into a 409 `ConflitError`. -/
def updateProductstock (productId : String) (list : List StockUpdateItem)
    (db : SalesDB) : UpdateStockResult × SalesDB × List StorageEvent :=
  let locations := list.map (fun item => item.locationId)
  if jsHasDuplicates locations then
    (.rejected { name := .badRequest, code := .reqFormat,
                 message := some "Repeated locationId not allowed." },
     db, [])
  else
    let toUpsert : List StockRow := list.map (fun stock =>
      { productId := productId, locationId := stock.locationId,
        quantity := stock.quantity })
    if !(db.products.contains productId) then
      (.rejected { name := .notFound, code := .notFound,
                   message := some "Product not found."
                   fields := [{ field := "productId",
                                message := "This productId doesn\x27t exist.",
                                value := productId }] },
       db, [.txnBegin, .readProduct])
    else if !(locations.all (fun l => db.locations.contains l)) then
      (.rejected { name := .conflit,
                   message := some "Can\x27t update product\x27s stock. Some locations don\x27t exist." },
       db, [.txnBegin, .readProduct])
    else
      (.noContent 204,
       { db with stock := bulkUpsertQuantity toUpsert db.stock },
       [.txnBegin, .readProduct, .writeStock])

/-- The two in-scope stock-mutating operations, as a step alphabet for
reachability statements. -/
inductive SalesOp where
  | createSale (sellerId locationId : String) (list : List SaleListItem)
  | updateStock (productId : String) (list : List StockUpdateItem)
deriving DecidableEq, Repr

/-- The state after running one operation (the HTTP result and the event
trace are dropped). -/
def runOp (db : SalesDB) : SalesOp → SalesDB
  | .createSale sellerId locationId list => (createSale sellerId locationId list db).2.1
  | .updateStock productId list => (updateProductstock productId list db).2.1

/-- The state after running a sequence of operations. -/
def runOps (db : SalesDB) (ops : List SalesOp) : SalesDB :=
  ops.foldl runOp db

/-- Every stock quantity in the state is non-negative. -/
def nonNegStock (db : SalesDB) : Prop :=
  ∀ s ∈ db.stock, 0 ≤ s.quantity

/-- Request validity for an operation, as guaranteed by the route
contracts: sale-item quantities are route-validated `@isInt @minimum 1`
(`src/sales/salesController.ts` line 251), and stock-update quantities are
absolute amounts, non-negative per the stock model's `min 0` validator
(`src/products/stockModel.ts` lines 24–30) and the spec's
`updates: [{locationId, quantity>=0}]` contract. -/
def opValid : SalesOp → Prop
  | .createSale _ _ list => ∀ item ∈ list, 1 ≤ item.quantity
  | .updateStock _ list => ∀ item ∈ list, 0 ≤ item.quantity

/-! ## Product catalog and category satellite tables
(`src/products/productsController.ts`, `src/products/productModel.ts`,
`src/products/categories/*`)

Each category has a satellite table (`Tshirt`, `Bag`, `Book`) linked 1:1
to `product` by `productId`; `productModel.ts` documents the business
rule that exactly one of `createTshirt` / `createBag` / `createBook` must
be called, exactly once, matching the product's category. The
category-specific attribute payloads are irrelevant to the claims; the
satellite tables are modelled as the lists of productIds they contain. -/

/-- The `ProductCategory` enum of `src/products/types.ts`. -/
inductive ProductCategory where
  | tshirt
  | bag
  | book
deriving DecidableEq, Repr

/-- A `Product` row (`src/products/productModel.ts`): generated UUID
primary key (modelled by a counter), name, description, price (Euro
cents), category, `active` defaulting to true. -/
structure ProductRow where
  productId : Nat
  name : String
  description : String
  price : Int
  category : ProductCategory
  active : Bool
deriving DecidableEq, Repr

/-- The catalog state: the product table plus the three satellite tables,
each modelled as the list of productIds that own a row in it, and the
fresh-id counter standing for the store's UUID generator. -/
structure CatalogDB where
  products : List ProductRow
  tshirtRows : List Nat
  bagRows : List Nat
  bookRows : List Nat
  nextProductId : Nat
deriving DecidableEq, Repr

/-- The common fields of `CreateTshirtParams` / `CreateBagParams` /
`CreateBookParams` (`CreateProductParams` of
`src/products/productsController.ts`). -/
structure CreateProductParams where
  name : String
  description : String
  price : Int
deriving DecidableEq, Repr

/-- The `createProduct` helper of `src/products/productsController.ts`
(lines 800–807): `Product.create({name, description, price, category})`
inside the caller's transaction; `active` takes its default `true`. -/
def createProduct (params : CreateProductParams) (category : ProductCategory)
    (db : CatalogDB) : ProductRow × CatalogDB :=
  let product : ProductRow :=
    { productId := db.nextProductId
      name := params.name
      description := params.description
      price := params.price
      category := category
      active := true }
  (product,
   { db with products := db.products ++ [product]
             nextProductId := db.nextProductId + 1 })

/-- `createTshirt` of `src/products/productsController.ts` (lines
467–492), successful path: inside a read-committed transaction, create
the product with category `TSHIRT`, then `product.createTshirt(...)` — a
row in the `Tshirt` satellite table. Returns the 201 payload (the new
productId) and the resulting state. -/
def createTshirt (body : CreateProductParams) (db : CatalogDB) :
    Nat × CatalogDB :=
  let (product, db1) := createProduct body .tshirt db
  (product.productId, { db1 with tshirtRows := db1.tshirtRows ++ [product.productId] })

/-- `createBag` of `src/products/productsController.ts` (lines 506–530),
successful path: create the product with category `BAG`, then
`product.createBag(...)` — a row in the `Bag` satellite table. -/
def createBag (body : CreateProductParams) (db : CatalogDB) :
    Nat × CatalogDB :=
  let (product, db1) := createProduct body .bag db
  (product.productId, { db1 with bagRows := db1.bagRows ++ [product.productId] })

/-- `createBook` of `src/products/productsController.ts` (lines 544–568),
successful path, embedded exactly as written: line 551 calls
`createProduct(body, ProductCategory.BAG, t)` — the product row is
created with category `BAG` — and then `product.createBook(...)` creates
the satellite row in the `Book` table. -/
def createBook (body : CreateProductParams) (db : CatalogDB) :
    Nat × CatalogDB :=
  let (product, db1) := createProduct body .bag db
  (product.productId, { db1 with bookRows := db1.bookRows ++ [product.productId] })

/-- The product row created by a category-creation call, and the satellite
tables holding its productId, in the resulting state. -/
def satelliteTablesOf (db : CatalogDB) (productId : Nat) : List ProductCategory :=
  (if db.tshirtRows.contains productId then [ProductCategory.tshirt] else []) ++
  (if db.bagRows.contains productId then [ProductCategory.bag] else []) ++
  (if db.bookRows.contains productId then [ProductCategory.book] else [])

/-! ## Lemmas: the JavaScript duplicate test detects exactly duplicate
lists -/

theorem jsLastIndexOf_cons (a : String) (rest : List String) (x : String) :
    jsLastIndexOf (a :: rest) x =
      if jsLastIndexOf rest x ≥ 0 then jsLastIndexOf rest x + 1
      else if a == x then 0 else -1 := rfl

theorem jsLastIndexOf_eq_neg_one {xs : List String} {x : String} (h : x ∉ xs) :
    jsLastIndexOf xs x = -1 := by
  induction xs with
  | nil => rfl
  | cons a rest ih =>
    simp only [List.mem_cons, not_or] at h
    have ha : (a == x) = false := by
      simp only [beq_eq_false_iff_ne, ne_eq]
      exact fun e => h.1 e.symm
    rw [jsLastIndexOf_cons, ih h.2, ha]
    simp

theorem jsLastIndexOf_nonneg {xs : List String} {x : String} (h : x ∈ xs) :
    0 ≤ jsLastIndexOf xs x := by
  induction xs with
  | nil => cases h
  | cons a rest ih =>
    rw [jsLastIndexOf_cons]
    by_cases hr : jsLastIndexOf rest x ≥ 0
    · rw [if_pos hr]; omega
    · rcases List.mem_cons.mp h with h1 | h2
      · rw [if_neg hr, if_pos (by simp [h1.symm])]
      · exact absurd (ih h2) hr

theorem jsLastIndexOf_ge_index {xs : List String} {x : String} (i : Fin xs.length)
    (h : xs.get i = x) : (i : Int) ≤ jsLastIndexOf xs x := by
  induction xs with
  | nil => exact absurd i.isLt (by simp)
  | cons a rest ih =>
    rcases i with ⟨iv, hi⟩
    match iv with
    | 0 =>
      have hx : x ∈ a :: rest := by
        rw [← h]; exact List.get_mem _ _ _
      simpa using jsLastIndexOf_nonneg hx
    | j + 1 =>
      have hj : j < rest.length := Nat.lt_of_succ_lt_succ hi
      have hrest : rest.get ⟨j, hj⟩ = x := h
      have hxj := ih ⟨j, hj⟩ hrest
      have hmem : x ∈ rest := by rw [← hrest]; exact List.get_mem _ _ _
      have hr0 := jsLastIndexOf_nonneg hmem
      rw [jsLastIndexOf_cons, if_pos (by omega : jsLastIndexOf rest x ≥ 0)]
      simp only [Fin.val_mk] at hxj ⊢
      omega

theorem jsLastIndexOf_of_nodup {xs : List String} (h : xs.Nodup)
    (i : Fin xs.length) : jsLastIndexOf xs (xs.get i) = (i : Int) := by
  induction xs with
  | nil => exact absurd i.isLt (by simp)
  | cons a rest ih =>
    have hna : a ∉ rest := (List.nodup_cons.mp h).1
    have hnrest : rest.Nodup := (List.nodup_cons.mp h).2
    rcases i with ⟨iv, hi⟩
    match iv with
    | 0 =>
      show jsLastIndexOf (a :: rest) a = (0 : Int)
      rw [jsLastIndexOf_cons, jsLastIndexOf_eq_neg_one hna]
      simp
    | j + 1 =>
      have hj : j < rest.length := Nat.lt_of_succ_lt_succ hi
      have hr := ih hnrest ⟨j, hj⟩
      have hmem : rest.get ⟨j, hj⟩ ∈ rest := List.get_mem _ _ _
      have hr0 : 0 ≤ jsLastIndexOf rest (rest.get ⟨j, hj⟩) := jsLastIndexOf_nonneg hmem
      show jsLastIndexOf (a :: rest) (rest.get ⟨j, hj⟩) = ((j + 1 : Nat) : Int)
      rw [jsLastIndexOf_cons,
        if_pos (by omega : jsLastIndexOf rest (rest.get ⟨j, hj⟩) ≥ 0)]
      simp only [Fin.val_mk] at hr
      omega

theorem jsSomeWithIdx_iff (f : String → Nat → Bool) (xs : List String) (i : Nat) :
    jsSomeWithIdx f xs i = true ↔ ∃ j : Fin xs.length, f (xs.get j) (i + j) = true := by
  induction xs generalizing i with
  | nil =>
    simp only [jsSomeWithIdx]
    constructor
    · intro h; cases h
    · rintro ⟨j, _⟩; exact absurd j.isLt (by simp)
  | cons a rest ih =>
    simp only [jsSomeWithIdx, Bool.or_eq_true]
    constructor
    · rintro (h | h)
      · exact ⟨⟨0, Nat.succ_pos _⟩, by simpa using h⟩
      · rcases (ih (i + 1)).mp h with ⟨j, hj⟩
        refine ⟨⟨j.1 + 1, Nat.succ_lt_succ j.isLt⟩, ?_⟩
        show f (rest.get j) (i + (j.1 + 1)) = true
        have : i + (j.1 + 1) = i + 1 + j.1 := by omega
        rw [this]
        exact hj
    · rintro ⟨⟨jv, hjv⟩, hj⟩
      match jv with
      | 0 => exact Or.inl (by simpa using hj)
      | k + 1 =>
        right
        refine (ih (i + 1)).mpr ⟨⟨k, Nat.lt_of_succ_lt_succ hjv⟩, ?_⟩
        show f (rest.get ⟨k, _⟩) (i + 1 + k) = true
        have : i + 1 + k = i + (k + 1) := by omega
        rw [this]
        exact hj

/-- The duplicate test of `createSale` / `updateProductstock` passes (is
`false`) exactly on duplicate-free lists. -/
theorem jsHasDuplicates_eq_false_iff (xs : List String) :
    jsHasDuplicates xs = false ↔ xs.Nodup := by
  constructor
  · intro h
    by_contra hnd
    rw [List.nodup_iff_injective_get] at hnd
    simp only [Function.Injective] at hnd
    push_neg at hnd
    rcases hnd with ⟨i, j, hij, hne⟩
    rcases Fin.lt_or_lt_of_ne hne with hlt | hlt
    · have hge := jsLastIndexOf_ge_index j hij.symm
      have : jsHasDuplicates xs = true := by
        rw [jsHasDuplicates, jsSomeWithIdx_iff]
        refine ⟨i, ?_⟩
        simp only [Nat.zero_add, bne_iff_ne, ne_eq]
        intro he
        rw [he] at hge
        exact absurd (Fin.lt_iff_val_lt_val.mp hlt) (by omega)
      rw [this] at h; cases h
    · have hge := jsLastIndexOf_ge_index i hij
      have : jsHasDuplicates xs = true := by
        rw [jsHasDuplicates, jsSomeWithIdx_iff]
        refine ⟨j, ?_⟩
        simp only [Nat.zero_add, bne_iff_ne, ne_eq]
        intro he
        rw [he] at hge
        exact absurd (Fin.lt_iff_val_lt_val.mp hlt) (by omega)
      rw [this] at h; cases h
  · intro hnd
    by_contra h
    have h' : jsHasDuplicates xs = true := by
      cases hh : jsHasDuplicates xs
      · exact absurd hh h
      · rfl
    rw [jsHasDuplicates, jsSomeWithIdx_iff] at h'
    rcases h' with ⟨j, hj⟩
    rw [jsLastIndexOf_of_nodup hnd j] at hj
    simp at hj

/-! ## Lemmas: stock lookups, in-memory decrements, upserts -/

/-- The composite primary key of a stock row. -/
def StockRow.key (s : StockRow) : String × String := (s.productId, s.locationId)

theorem find?_filter {α} (l : List α) (p q : α → Bool) :
    (l.filter p).find? q = l.find? (fun a => p a && q a) := by
  induction l with
  | nil => rfl
  | cons a rest ih =>
    by_cases hp : p a
    · by_cases hq : q a
      · simp [List.filter_cons, hp, List.find?_cons, hq]
      · simp [List.filter_cons, hp, List.find?_cons, hq, ih]
    · simp [List.filter_cons, hp, List.find?_cons, ih]

theorem decrementFirst_find?_eq (pid : String) (q : Int) (l : List StockRow) :
    (decrementFirst pid q l).find? (fun s => s.productId == pid) =
      (l.find? (fun s => s.productId == pid)).map
        (fun s => { s with quantity := s.quantity - q }) := by
  induction l with
  | nil => rfl
  | cons s rest ih =>
    by_cases h : s.productId == pid
    · simp [decrementFirst, h, List.find?_cons]
    · simp [decrementFirst, h, List.find?_cons, ih]

theorem decrementFirst_find?_ne {pid pid' : String} (h : pid' ≠ pid) (q : Int)
    (l : List StockRow) :
    (decrementFirst pid q l).find? (fun s => s.productId == pid') =
      l.find? (fun s => s.productId == pid') := by
  induction l with
  | nil => rfl
  | cons s rest ih =>
    by_cases hs : s.productId == pid
    · have hpid : s.productId = pid := by simpa using hs
      have hne : (s.productId == pid') = false := by
        simp only [hpid, beq_eq_false_iff_ne, ne_eq]
        exact fun e => h e.symm
      simp [decrementFirst, hs, List.find?_cons, hne]
    · simp [decrementFirst, hs, List.find?_cons, ih]

theorem decrementFirst_map_key (pid : String) (q : Int) (l : List StockRow) :
    (decrementFirst pid q l).map StockRow.key = l.map StockRow.key := by
  induction l with
  | nil => rfl
  | cons s rest ih =>
    by_cases h : s.productId == pid
    · simp [decrementFirst, h, StockRow.key]
    · simp [decrementFirst, h, ih]

theorem decrementFirst_nonneg {pid : String} {q : Int} {l : List StockRow}
    (hall : ∀ s ∈ l, 0 ≤ s.quantity)
    (hfound : ∀ s, l.find? (fun s => s.productId == pid) = some s → q ≤ s.quantity) :
    ∀ t ∈ decrementFirst pid q l, 0 ≤ t.quantity := by
  induction l with
  | nil => intro t ht; cases ht
  | cons s rest ih =>
    by_cases h : s.productId == pid
    · intro t ht
      rw [decrementFirst, if_pos h] at ht
      rcases List.mem_cons.mp ht with h1 | h2
      · have hq : q ≤ s.quantity := by
          apply hfound
          simp [List.find?_cons, h]
        have h0 : 0 ≤ s.quantity := hall s (List.mem_cons_self _ _)
        subst h1
        simp only
        omega
      · exact hall t (List.mem_cons_of_mem _ h2)
    · intro t ht
      rw [decrementFirst, if_neg h] at ht
      rcases List.mem_cons.mp ht with h1 | h2
      · subst h1; exact hall t (List.mem_cons_self _ _)
      · refine ih (fun s' hs' => hall s' (List.mem_cons_of_mem _ hs')) ?_ t h2
        intro s' hs'
        apply hfound
        simp [List.find?_cons, h, hs']

theorem upsertQuantity_find?_self (row : StockRow) (l : List StockRow) :
    (upsertQuantity row l).find?
      (fun s => s.productId == row.productId && s.locationId == row.locationId) =
      some row := by
  induction l with
  | nil => simp [upsertQuantity, List.find?_cons]
  | cons s rest ih =>
    by_cases h : s.productId == row.productId && s.locationId == row.locationId
    · have h1 : s.productId = row.productId := by
        have := (Bool.and_eq_true _ _).mp h
        simpa using this.1
      have h2 : s.locationId = row.locationId := by
        have := (Bool.and_eq_true _ _).mp h
        simpa using this.2
      have hrow : { s with quantity := row.quantity } = row := by
        cases s; cases row
        simp_all
      rw [upsertQuantity, if_pos h, List.find?_cons]
      rw [hrow]
      simp
    · rw [upsertQuantity, if_neg h, List.find?_cons]
      simp only [h]
      exact ih

theorem upsertQuantity_find?_ne {row : StockRow} {p l' : String}
    (h : ¬(p = row.productId ∧ l' = row.locationId)) (l : List StockRow) :
    (upsertQuantity row l).find? (fun s => s.productId == p && s.locationId == l') =
      l.find? (fun s => s.productId == p && s.locationId == l') := by
  have hrow : (row.productId == p && row.locationId == l') = false := by
    by_cases h1 : row.productId = p
    · by_cases h2 : row.locationId = l'
      · exact absurd ⟨h1.symm, h2.symm⟩ h
      · simp [h2]
    · simp [h1]
  induction l with
  | nil => simp [upsertQuantity, List.find?_cons, hrow]
  | cons s rest ih =>
    by_cases hs : s.productId == row.productId && s.locationId == row.locationId
    · have h1 : s.productId = row.productId := by
        have := (Bool.and_eq_true _ _).mp hs
        simpa using this.1
      have h2 : s.locationId = row.locationId := by
        have := (Bool.and_eq_true _ _).mp hs
        simpa using this.2
      have hsp : (s.productId == p && s.locationId == l') = false := by
        rw [h1, h2]; exact hrow
      rw [upsertQuantity, if_pos hs, List.find?_cons, List.find?_cons]
      simp only [hsp]
    · rw [upsertQuantity, if_neg hs, List.find?_cons, List.find?_cons]
      by_cases hsp : s.productId == p && s.locationId == l'
      · simp only [hsp]
      · simp only [hsp]
        exact ih

theorem upsertQuantity_map_key_of_mem {row : StockRow} {l : List StockRow}
    (h : row.key ∈ l.map StockRow.key) :
    (upsertQuantity row l).map StockRow.key = l.map StockRow.key := by
  induction l with
  | nil => cases h
  | cons s rest ih =>
    by_cases hs : s.productId == row.productId && s.locationId == row.locationId
    · rw [upsertQuantity, if_pos hs]
      simp [StockRow.key]
    · rw [upsertQuantity, if_neg hs]
      have hne : row.key ≠ s.key := by
        intro he
        apply hs
        rcases Prod.mk.injEq .. ▸ he with ⟨h1, h2⟩
        simp [StockRow.key] at he
        simp [he.1, he.2]
      rcases List.mem_map.mp h with ⟨t, ht, hkey⟩
      rcases List.mem_cons.mp ht with h1 | h2
      · exact absurd (h1 ▸ hkey.symm) hne
      · have : row.key ∈ rest.map StockRow.key :=
          List.mem_map.mpr ⟨t, h2, hkey⟩
        simp [ih this]

theorem upsertQuantity_nonneg {row : StockRow} {l : List StockRow}
    (hrow : 0 ≤ row.quantity) (hall : ∀ s ∈ l, 0 ≤ s.quantity) :
    ∀ t ∈ upsertQuantity row l, 0 ≤ t.quantity := by
  induction l with
  | nil =>
    intro t ht
    rcases List.mem_singleton.mp ht with rfl
    exact hrow
  | cons s rest ih =>
    intro t ht
    by_cases hs : s.productId == row.productId && s.locationId == row.locationId
    · rw [upsertQuantity, if_pos hs] at ht
      rcases List.mem_cons.mp ht with h1 | h2
      · subst h1; exact hrow
      · exact hall t (List.mem_cons_of_mem _ h2)
    · rw [upsertQuantity, if_neg hs] at ht
      rcases List.mem_cons.mp ht with h1 | h2
      · subst h1; exact hall t (List.mem_cons_self _ _)
      · exact ih (fun s' hs' => hall s' (List.mem_cons_of_mem _ hs')) t h2

theorem bulkUpsertQuantity_nonneg {rows stock : List StockRow}
    (hrows : ∀ r ∈ rows, 0 ≤ r.quantity) (hall : ∀ s ∈ stock, 0 ≤ s.quantity) :
    ∀ t ∈ bulkUpsertQuantity rows stock, 0 ≤ t.quantity := by
  induction rows generalizing stock with
  | nil => exact hall
  | cons r rs ih =>
    intro t ht
    refine ih (fun r' hr' => hrows r' (List.mem_cons_of_mem _ hr')) ?_ t ht
    exact upsertQuantity_nonneg (hrows r (List.mem_cons_self _ _)) hall

theorem bulkUpsertQuantity_map_key {rows stock : List StockRow}
    (h : ∀ r ∈ rows, r.key ∈ stock.map StockRow.key) :
    (bulkUpsertQuantity rows stock).map StockRow.key = stock.map StockRow.key := by
  induction rows generalizing stock with
  | nil => rfl
  | cons r rs ih =>
    have hkey := upsertQuantity_map_key_of_mem (h r (List.mem_cons_self _ _))
    have : (bulkUpsertQuantity rs (upsertQuantity r stock)).map StockRow.key =
        (upsertQuantity r stock).map StockRow.key := by
      refine ih ?_
      intro r' hr'
      rw [hkey]
      exact h r' (List.mem_cons_of_mem _ hr')
    calc (bulkUpsertQuantity (r :: rs) stock).map StockRow.key
        = (bulkUpsertQuantity rs (upsertQuantity r stock)).map StockRow.key := rfl
      _ = (upsertQuantity r stock).map StockRow.key := this
      _ = stock.map StockRow.key := hkey

theorem bulkUpsertQuantity_find? {rows : List StockRow}
    (hkeys : (rows.map StockRow.key).Nodup) (stock : List StockRow)
    (p l' : String) :
    (bulkUpsertQuantity rows stock).find?
        (fun s => s.productId == p && s.locationId == l') =
      match rows.find? (fun r => r.productId == p && r.locationId == l') with
      | some r => some r
      | none => stock.find? (fun s => s.productId == p && s.locationId == l') := by
  induction rows generalizing stock with
  | nil => rfl
  | cons r rs ih =>
    have hkeyrs : (rs.map StockRow.key).Nodup := (List.nodup_cons.mp hkeys).2
    have hnotin : r.key ∉ rs.map StockRow.key := (List.nodup_cons.mp hkeys).1
    by_cases hr : r.productId == p && r.locationId == l'
    · have h1 : r.productId = p := by
        have := (Bool.and_eq_true _ _).mp hr
        simpa using this.1
      have h2 : r.locationId = l' := by
        have := (Bool.and_eq_true _ _).mp hr
        simpa using this.2
      have hrs_none : rs.find? (fun s => s.productId == p && s.locationId == l') = none := by
        rw [List.find?_eq_none]
        intro x hx hpx
        apply hnotin
        have hx1 : x.productId = p := by
          have := (Bool.and_eq_true _ _).mp hpx
          simpa using this.1
        have hx2 : x.locationId = l' := by
          have := (Bool.and_eq_true _ _).mp hpx
          simpa using this.2
        have : x.key = r.key := by
          simp [StockRow.key, hx1, hx2, h1, h2]
        rw [← this]
        exact List.mem_map.mpr ⟨x, hx, rfl⟩
      have step : bulkUpsertQuantity (r :: rs) stock =
          bulkUpsertQuantity rs (upsertQuantity r stock) := rfl
      rw [step, ih hkeyrs, hrs_none, List.find?_cons]
      simp only [hr]
      have : (fun s : StockRow => s.productId == p && s.locationId == l') =
          (fun s : StockRow => s.productId == r.productId && s.locationId == r.locationId) := by
        rw [h1, h2]
      rw [this, upsertQuantity_find?_self]
    · have step : bulkUpsertQuantity (r :: rs) stock =
          bulkUpsertQuantity rs (upsertQuantity r stock) := rfl
      have hne : ¬(p = r.productId ∧ l' = r.locationId) := by
        rintro ⟨h1, h2⟩
        apply hr
        simp [h1, h2]
      rw [step, ih hkeyrs, List.find?_cons]
      simp only [hr]
      rw [upsertQuantity_find?_ne hne]

/-! ## Lemmas: the `createSale` validation loop -/

theorem validateAndDecrement_cons_none {item : SaleListItem}
    {rest : List SaleListItem} {stocks : List StockRow}
    (hf : stocks.find? (fun s => s.productId == item.productId) = none) :
    validateAndDecrement (item :: rest) stocks = none := by
  rw [validateAndDecrement, hf]

theorem validateAndDecrement_cons_some {item : SaleListItem}
    {rest : List SaleListItem} {stocks : List StockRow} {s : StockRow}
    (hf : stocks.find? (fun s => s.productId == item.productId) = some s) :
    validateAndDecrement (item :: rest) stocks =
      if s.quantity < item.quantity then none
      else validateAndDecrement rest
        (decrementFirst item.productId item.quantity stocks) := by
  rw [validateAndDecrement, hf]

theorem validateAndDecrement_none_of_bad {items : List SaleListItem}
    {stocks : List StockRow}
    (hnodup : (items.map (fun i => i.productId)).Nodup)
    (hbad : ∃ item ∈ items,
      stocks.find? (fun s => s.productId == item.productId) = none ∨
      ∃ s, stocks.find? (fun s => s.productId == item.productId) = some s ∧
        s.quantity < item.quantity) :
    validateAndDecrement items stocks = none := by
  induction items generalizing stocks with
  | nil => rcases hbad with ⟨item, hmem, _⟩; cases hmem
  | cons item rest ih =>
    have hnodup_rest : (rest.map (fun i => i.productId)).Nodup :=
      (List.nodup_cons.mp (by simpa using hnodup)).2
    have hnotin : item.productId ∉ rest.map (fun i => i.productId) :=
      (List.nodup_cons.mp (by simpa using hnodup)).1
    rcases hbad with ⟨bad, hmem, hcond⟩
    rcases List.mem_cons.mp hmem with h1 | h2
    · subst h1
      rcases hcond with hnone | ⟨s, hf, hlt⟩
      · exact validateAndDecrement_cons_none hnone
      · rw [validateAndDecrement_cons_some hf, if_pos hlt]
    · cases hf : stocks.find? (fun s => s.productId == item.productId) with
      | none => exact validateAndDecrement_cons_none hf
      | some s =>
        rw [validateAndDecrement_cons_some hf]
        by_cases hq : s.quantity < item.quantity
        · rw [if_pos hq]
        · rw [if_neg hq]
          apply ih hnodup_rest
          refine ⟨bad, h2, ?_⟩
          have hne : bad.productId ≠ item.productId := by
            intro he
            exact hnotin (List.mem_map.mpr ⟨bad, h2, he⟩)
          rw [decrementFirst_find?_ne hne]
          exact hcond

theorem validateAndDecrement_map_key {items : List SaleListItem}
    {stocks out : List StockRow}
    (h : validateAndDecrement items stocks = some out) :
    out.map StockRow.key = stocks.map StockRow.key := by
  induction items generalizing stocks with
  | nil =>
    rw [validateAndDecrement] at h
    cases h
    rfl
  | cons item rest ih =>
    cases hf : stocks.find? (fun s => s.productId == item.productId) with
    | none => rw [validateAndDecrement_cons_none hf] at h; cases h
    | some s =>
      rw [validateAndDecrement_cons_some hf] at h
      by_cases hq : s.quantity < item.quantity
      · rw [if_pos hq] at h; cases h
      · rw [if_neg hq] at h
        rw [ih h, decrementFirst_map_key]

theorem validateAndDecrement_nonneg {items : List SaleListItem}
    {stocks out : List StockRow}
    (hall : ∀ s ∈ stocks, 0 ≤ s.quantity)
    (h : validateAndDecrement items stocks = some out) :
    ∀ t ∈ out, 0 ≤ t.quantity := by
  induction items generalizing stocks with
  | nil =>
    rw [validateAndDecrement] at h
    cases h
    exact hall
  | cons item rest ih =>
    cases hf : stocks.find? (fun s => s.productId == item.productId) with
    | none => rw [validateAndDecrement_cons_none hf] at h; cases h
    | some s =>
      rw [validateAndDecrement_cons_some hf] at h
      by_cases hq : s.quantity < item.quantity
      · rw [if_pos hq] at h; cases h
      · rw [if_neg hq] at h
        refine ih ?_ h
        apply decrementFirst_nonneg hall
        intro s' hs'
        rw [hf] at hs'
        cases hs'
        omega

theorem validateAndDecrement_some_spec {items : List SaleListItem}
    {stocks : List StockRow}
    (hnodup : (items.map (fun i => i.productId)).Nodup)
    (hok : ∀ item ∈ items, ∃ s,
      stocks.find? (fun s => s.productId == item.productId) = some s ∧
      item.quantity ≤ s.quantity) :
    ∃ out, validateAndDecrement items stocks = some out ∧
      ∀ p : String,
        out.find? (fun s => s.productId == p) =
          match items.find? (fun i => i.productId == p) with
          | some item => (stocks.find? (fun s => s.productId == p)).map
              (fun s => { s with quantity := s.quantity - item.quantity })
          | none => stocks.find? (fun s => s.productId == p) := by
  induction items generalizing stocks with
  | nil =>
    refine ⟨stocks, rfl, ?_⟩
    intro p
    simp [List.find?]
  | cons item rest ih =>
    have hnodup_rest : (rest.map (fun i => i.productId)).Nodup :=
      (List.nodup_cons.mp (by simpa using hnodup)).2
    have hnotin : item.productId ∉ rest.map (fun i => i.productId) :=
      (List.nodup_cons.mp (by simpa using hnodup)).1
    rcases hok item (List.mem_cons_self _ _) with ⟨s, hf, hq⟩
    have hrest_ok : ∀ it ∈ rest, ∃ s,
        (decrementFirst item.productId item.quantity stocks).find?
          (fun r => r.productId == it.productId) = some s ∧
        it.quantity ≤ s.quantity := by
      intro it hit
      have hne : it.productId ≠ item.productId := by
        intro he
        exact hnotin (List.mem_map.mpr ⟨it, hit, he⟩)
      rw [decrementFirst_find?_ne hne]
      exact hok it (List.mem_cons_of_mem _ hit)
    rcases ih hnodup_rest hrest_ok with ⟨out, hout, hspec⟩
    refine ⟨out, ?_, ?_⟩
    · rw [validateAndDecrement_cons_some hf, if_neg (by omega)]
      exact hout
    · intro p
      by_cases hp : item.productId = p
      · subst hp
        have hrest_none : rest.find? (fun i => i.productId == item.productId) = none := by
          rw [List.find?_eq_none]
          intro it hit hpit
          exact hnotin (List.mem_map.mpr ⟨it, hit, by simpa using hpit⟩)
        rw [hspec item.productId, hrest_none,
          List.find?_cons_of_pos _ (by simp), decrementFirst_find?_eq]
      · have hcons : (item :: rest).find? (fun i => i.productId == p) =
            rest.find? (fun i => i.productId == p) :=
          List.find?_cons_of_neg _ (by simpa using hp)
        rw [hspec p, hcons, decrementFirst_find?_ne (fun e => hp e.symm)]

/-! ## Remaining helper lemmas -/

theorem find?_congr_mem {α} {l : List α} {p q : α → Bool}
    (h : ∀ a ∈ l, p a = q a) : l.find? p = l.find? q := by
  induction l with
  | nil => rfl
  | cons a rest ih =>
    have ha := h a (List.mem_cons_self _ _)
    by_cases hp : p a
    · rw [List.find?_cons_of_pos _ hp, List.find?_cons_of_pos _ (ha ▸ hp)]
    · rw [List.find?_cons_of_neg _ hp, List.find?_cons_of_neg _ (fun hq => hp (ha ▸ hq))]
      exact ih (fun a' ha' => h a' (List.mem_cons_of_mem _ ha'))

theorem items_find?_self {items : List SaleListItem} {item : SaleListItem}
    (hnodup : (items.map (fun i => i.productId)).Nodup) (hmem : item ∈ items) :
    items.find? (fun i => i.productId == item.productId) = some item := by
  induction items with
  | nil => cases hmem
  | cons hd rest ih =>
    have hnotin : hd.productId ∉ rest.map (fun i => i.productId) :=
      (List.nodup_cons.mp (by simpa using hnodup)).1
    have hnodup_rest : (rest.map (fun i => i.productId)).Nodup :=
      (List.nodup_cons.mp (by simpa using hnodup)).2
    rcases List.mem_cons.mp hmem with rfl | hmem2
    · rw [List.find?_cons_of_pos _ (by simp)]
    · have hne : (hd.productId == item.productId) = false := by
        simp only [beq_eq_false_iff_ne, ne_eq]
        intro he
        exact hnotin (List.mem_map.mpr ⟨item, hmem2, he.symm⟩)
      rw [List.find?_cons_of_neg _ (by simp [hne])]
      exact ih hnodup_rest hmem2

/-- The location-filtered stock read of `createSale`, looked up by
productId, agrees with a lookup of the full table by
(productId, locationId), for products that are in the requested list. -/
theorem stockLookup_filter (stock : List StockRow) (productIds : List String)
    (locationId pid : String) (hmem : pid ∈ productIds) :
    (stock.filter
        (fun s => productIds.contains s.productId && s.locationId == locationId)).find?
      (fun s => s.productId == pid) =
    stock.find? (fun s => s.productId == pid && s.locationId == locationId) := by
  rw [find?_filter]
  apply find?_congr_mem
  intro s _
  by_cases h : s.productId = pid
  · have hc : productIds.contains s.productId = true := by
      rw [h]
      exact List.elem_eq_true_of_mem hmem
    simp only [h, hc, Bool.true_and, Bool.and_true, beq_self_eq_true]
    by_cases hl : s.locationId == locationId <;> simp [hl, hmem]
  · have hb : (s.productId == pid) = false := by
      simp only [beq_eq_false_iff_ne, ne_eq]
      exact h
    simp [hb]

/-! ## Claim theorems -/

/-- C8: for every pair of roles drawn from {basic, seller, manager, admin}
with masks basic=0x00, seller=0x01, manager=0x0F, admin=0xFF,
`hasRolePrivileges(actual, required)` returns true iff
`(actualMask & requiredMask) == requiredMask`; consequently a role whose
mask is a bit-superset of a lower role's mask passes every check that the
lower role passes. -/
theorem hasRolePrivileges_bitmask_spec :
    (∀ a r : Role, hasRolePrivileges a r = true ↔
      roleValue a &&& roleValue r = roleValue r) ∧
    (∀ hi lo r : Role, roleValue hi &&& roleValue lo = roleValue lo →
      hasRolePrivileges lo r = true → hasRolePrivileges hi r = true) := by
  refine ⟨?_, ?_⟩ <;> decide

/-- Witness for C8 at concrete roles: admin's mask is a bit-superset of
manager's, and manager passes the seller check, so admin does too. -/
theorem hasRolePrivileges_bitmask_spec_witness :
    hasRolePrivileges Role.admin Role.seller = true :=
  hasRolePrivileges_bitmask_spec.2 Role.admin Role.manager Role.seller
    (by decide) (by decide)

/-- C10: for every request bearing a validly signed access token, a
present-but-empty required-scope list makes `jwtValidator` deny access
with an authorization error: the `scopes == []` branch compares against a
fresh array and never fires, and `hasRolePrivileges` applied to the
`undefined` required role returns false for every actual role. -/
theorem jwtValidator_emptyScopes_denies
    (verify : String → Option (String × String)) (token userId role : String)
    (hv : verify token = some (userId, role)) :
    jwtValidator verify (some token) (some []) =
      .authorizationError "Not enough privileges for this action." ∧
    ∀ r : String, hasRolePrivilegesJS r none = false := by
  constructor
  · simp [jwtValidator, hv, jsEqFreshEmptyArray, hasRolePrivilegesJS,
      roleValueJS, jsStrictEqNum]
  · intro r
    rfl

/-- Witness for C10 at a concrete signer and token. -/
theorem jwtValidator_emptyScopes_denies_witness :
    jwtValidator (fun _ => some ("user-1", "admin")) (some "tok") (some []) =
      .authorizationError "Not enough privileges for this action." ∧
    ∀ r : String, hasRolePrivilegesJS r none = false :=
  jwtValidator_emptyScopes_denies (fun _ => some ("user-1", "admin"))
    "tok" "user-1" "admin" rfl

/-- A small concrete database used by witnesses: one product `p1` with
5 units at location `l1`. -/
def sampleDB : SalesDB :=
  { stock := [{ productId := "p1", locationId := "l1", quantity := 5 }]
    sales := []
    saleItems := []
    products := ["p1"]
    locations := ["l1"]
    nextSaleId := 0 }

/-- C5: a `createSale` request listing the same productId twice, and an
`updateStock` request listing the same locationId twice, are rejected with
a BadRequest format error before any storage access: the state is
untouched and the storage-event trace is empty (no transaction, no read,
no write). -/
theorem duplicate_ids_rejected_before_storage
    (sellerId locationId : String) (items : List SaleListItem)
    (productId : String) (updates : List StockUpdateItem) (db db2 : SalesDB)
    (hdup1 : ¬ (items.map (fun i => i.productId)).Nodup)
    (hdup2 : ¬ (updates.map (fun u => u.locationId)).Nodup) :
    createSale sellerId locationId items db =
      (.rejected { name := .badRequest, code := .reqFormat,
                   message := some "Repeated productId not allowed." },
       db, []) ∧
    updateProductstock productId updates db2 =
      (.rejected { name := .badRequest, code := .reqFormat,
                   message := some "Repeated locationId not allowed." },
       db2, []) := by
  have h1 : jsHasDuplicates (items.map (fun i => i.productId)) = true := by
    cases hh : jsHasDuplicates (items.map (fun i => i.productId)) with
    | false => exact absurd ((jsHasDuplicates_eq_false_iff _).mp hh) hdup1
    | true => rfl
  have h2 : jsHasDuplicates (updates.map (fun u => u.locationId)) = true := by
    cases hh : jsHasDuplicates (updates.map (fun u => u.locationId)) with
    | false => exact absurd ((jsHasDuplicates_eq_false_iff _).mp hh) hdup2
    | true => rfl
  constructor
  · rw [createSale, if_pos h1]
  · rw [updateProductstock, if_pos h2]

/-- Witness for C5: concrete duplicate requests against `sampleDB`. -/
theorem duplicate_ids_rejected_before_storage_witness :
    createSale "u1" "l1"
        [{ productId := "p1", quantity := 1 }, { productId := "p1", quantity := 1 }]
        sampleDB =
      (.rejected { name := .badRequest, code := .reqFormat,
                   message := some "Repeated productId not allowed." },
       sampleDB, []) ∧
    updateProductstock "p1"
        [{ locationId := "l1", quantity := 2 }, { locationId := "l1", quantity := 2 }]
        sampleDB =
      (.rejected { name := .badRequest, code := .reqFormat,
                   message := some "Repeated locationId not allowed." },
       sampleDB, []) :=
  duplicate_ids_rejected_before_storage "u1" "l1"
    [{ productId := "p1", quantity := 1 }, { productId := "p1", quantity := 1 }]
    "p1" [{ locationId := "l1", quantity := 2 }, { locationId := "l1", quantity := 2 }]
    sampleDB sampleDB (by decide) (by decide)

/-- A database holding a single stock row `(p1, l1)` with quantity 1,
used to exhibit the duplicate-vs-conflict precedence of `createSale`. -/
def shortStockDB : SalesDB :=
  { stock := [{ productId := "p1", locationId := "l1", quantity := 1 }]
    sales := []
    saleItems := []
    products := ["p1"]
    locations := ["l1"]
    nextSaleId := 0 }

/-- Counterexample to C1 as stated: the request
`[(p1, qty 2), (p1, qty 2)]` at `l1` satisfies the claim's antecedent —
`p1` has a Stock row at `l1` with quantity 1 < 2 — yet `createSale`
rejects it with the BadRequest duplicate-productId error (the duplicate
check runs first), not with a Conflict error. -/
theorem createSale_conflict_claim_counterexample :
    (shortStockDB.stock.find?
        (fun s => s.productId == "p1" && s.locationId == "l1") =
      some { productId := "p1", locationId := "l1", quantity := 1 }) ∧
    ((1 : Int) < 2) ∧
    createSale "u1" "l1"
        [{ productId := "p1", quantity := 2 }, { productId := "p1", quantity := 2 }]
        shortStockDB =
      (.rejected { name := .badRequest, code := .reqFormat,
                   message := some "Repeated productId not allowed." },
       shortStockDB, []) := by
  refine ⟨rfl, by decide, ?_⟩
  rfl

/-- C1 (amended): for every `createSale` request in which some requested
item has no Stock row at the target location or a Stock row with quantity
strictly less than the requested quantity, the operation rejects and
leaves every Stock row and the Sale/SaleItem tables exactly as they were:
with a Conflict error when the items carry no duplicate productId, and
with a BadRequest format error (checked first) when they do. -/
theorem createSale_insufficient_stock_atomic
    (sellerId locationId : String) (items : List SaleListItem) (db : SalesDB)
    (hbad : ∃ item ∈ items,
      db.stock.find?
          (fun s => s.productId == item.productId && s.locationId == locationId) =
        none ∨
      ∃ s, db.stock.find?
          (fun s => s.productId == item.productId && s.locationId == locationId) =
        some s ∧ s.quantity < item.quantity) :
    ((items.map (fun i => i.productId)).Nodup →
      createSale sellerId locationId items db =
        (.rejected { name := .conflit,
                     message := some "Can\x27t create sale. Either a product doesn\x27t exist or doesn\x27t have enough stock at this location." },
         db, [.txnBegin, .readStock])) ∧
    (¬ (items.map (fun i => i.productId)).Nodup →
      createSale sellerId locationId items db =
        (.rejected { name := .badRequest, code := .reqFormat,
                     message := some "Repeated productId not allowed." },
         db, [])) := by
  constructor
  · intro hnodup
    have hdup : jsHasDuplicates (items.map (fun item => item.productId)) = false :=
      (jsHasDuplicates_eq_false_iff _).mpr hnodup
    have hnone : validateAndDecrement items
        (db.stock.filter (fun s =>
          (items.map (fun item => item.productId)).contains s.productId &&
          s.locationId == locationId)) = none := by
      apply validateAndDecrement_none_of_bad hnodup
      rcases hbad with ⟨item, hmem, hcond⟩
      refine ⟨item, hmem, ?_⟩
      have hpid : item.productId ∈ items.map (fun item => item.productId) :=
        List.mem_map.mpr ⟨item, hmem, rfl⟩
      rw [stockLookup_filter db.stock _ locationId item.productId hpid]
      exact hcond
    rw [createSale, if_neg (by simp [hdup])]
    simp only [hnone]
  · intro hnd
    have h1 : jsHasDuplicates (items.map (fun item => item.productId)) = true := by
      cases hh : jsHasDuplicates (items.map (fun item => item.productId)) with
      | false => exact absurd ((jsHasDuplicates_eq_false_iff _).mp hh) hnd
      | true => rfl
    rw [createSale, if_pos h1]

/-- Witness for C1 (amended) at a concrete insufficient request. -/
theorem createSale_insufficient_stock_atomic_witness :
    createSale "u1" "l1" [{ productId := "p1", quantity := 2 }] shortStockDB =
      (.rejected { name := .conflit,
                   message := some "Can\x27t create sale. Either a product doesn\x27t exist or doesn\x27t have enough stock at this location." },
       shortStockDB, [.txnBegin, .readStock]) :=
  (createSale_insufficient_stock_atomic "u1" "l1"
      [{ productId := "p1", quantity := 2 }] shortStockDB
      ⟨{ productId := "p1", quantity := 2 }, by decide,
        Or.inr ⟨{ productId := "p1", locationId := "l1", quantity := 1 },
          rfl, by decide⟩⟩).1 (by decide)

/-- C2: a duplicate-free `createSale` request whose every item has a
sufficient Stock row at the target location succeeds with 201 and a fresh
saleId, inserts exactly one completed Sale row for this seller and
location, inserts exactly one SaleItem row per requested item referencing
that Sale, decrements each affected Stock row by exactly the requested
quantity, and changes nothing else (other stock rows, the set of stock
keys, products and locations are untouched). -/
theorem createSale_success_spec
    (sellerId locationId : String) (items : List SaleListItem) (db : SalesDB)
    (hkeys : (db.stock.map StockRow.key).Nodup)
    (hids : ∀ s ∈ db.sales, s.saleId < db.nextSaleId)
    (hnodup : (items.map (fun i => i.productId)).Nodup)
    (hok : ∀ item ∈ items, ∃ s,
      db.stock.find?
          (fun r => r.productId == item.productId && r.locationId == locationId) =
        some s ∧ item.quantity ≤ s.quantity) :
    (createSale sellerId locationId items db).1 = .created 201 db.nextSaleId ∧
    (createSale sellerId locationId items db).2.2 =
      [.txnBegin, .readStock, .writeSale, .writeSaleItems, .writeStock] ∧
    (∀ s ∈ db.sales, s.saleId ≠ db.nextSaleId) ∧
    (createSale sellerId locationId items db).2.1.sales =
      db.sales ++ [{ saleId := db.nextSaleId, sellerId := sellerId,
                     locationId := locationId, status := .completed }] ∧
    (createSale sellerId locationId items db).2.1.saleItems =
      db.saleItems ++ items.map (fun item =>
        { saleId := db.nextSaleId, productId := item.productId,
          quantity := item.quantity }) ∧
    (∀ item ∈ items,
      (createSale sellerId locationId items db).2.1.stock.find?
          (fun r => r.productId == item.productId && r.locationId == locationId) =
        (db.stock.find?
            (fun r => r.productId == item.productId && r.locationId == locationId)).map
          (fun s => { s with quantity := s.quantity - item.quantity })) ∧
    (∀ p l : String, (∀ item ∈ items, ¬(p = item.productId ∧ l = locationId)) →
      (createSale sellerId locationId items db).2.1.stock.find?
          (fun r => r.productId == p && r.locationId == l) =
        db.stock.find? (fun r => r.productId == p && r.locationId == l)) ∧
    (createSale sellerId locationId items db).2.1.stock.map StockRow.key =
      db.stock.map StockRow.key ∧
    (createSale sellerId locationId items db).2.1.products = db.products ∧
    (createSale sellerId locationId items db).2.1.locations = db.locations := by
  have hdup : jsHasDuplicates (items.map (fun item => item.productId)) = false :=
    (jsHasDuplicates_eq_false_iff _).mpr hnodup
  have hok2 : ∀ item ∈ items, ∃ s,
      (db.stock.filter (fun s =>
          (items.map (fun item => item.productId)).contains s.productId &&
          s.locationId == locationId)).find?
        (fun s => s.productId == item.productId) = some s ∧
      item.quantity ≤ s.quantity := by
    intro item hmem
    rw [stockLookup_filter db.stock _ locationId item.productId
      (List.mem_map.mpr ⟨item, hmem, rfl⟩)]
    exact hok item hmem
  obtain ⟨out, hout, hspec⟩ := validateAndDecrement_some_spec hnodup hok2
  have houtkeys : out.map StockRow.key =
      (db.stock.filter (fun s =>
          (items.map (fun item => item.productId)).contains s.productId &&
          s.locationId == locationId)).map StockRow.key :=
    validateAndDecrement_map_key hout
  have hfilterkeys : ((db.stock.filter (fun s =>
      (items.map (fun item => item.productId)).contains s.productId &&
      s.locationId == locationId)).map StockRow.key).Nodup :=
    hkeys.sublist (List.Sublist.map _ (List.filter_sublist _))
  have houtkeysnodup : (out.map StockRow.key).Nodup := by
    rw [houtkeys]; exact hfilterkeys
  have hmemout : ∀ r ∈ out,
      r.productId ∈ items.map (fun item => item.productId) ∧
      r.locationId = locationId := by
    intro r hr
    have hk : r.key ∈ out.map StockRow.key := List.mem_map_of_mem _ hr
    rw [houtkeys] at hk
    rcases List.mem_map.mp hk with ⟨t, ht, hkey⟩
    rcases List.mem_filter.mp ht with ⟨-, hpred⟩
    have h1 := (Bool.and_eq_true _ _).mp hpred
    have hpid : t.productId ∈ items.map (fun item => item.productId) := by
      simpa using h1.1
    have hlid : t.locationId = locationId := by simpa using h1.2
    have hk1 : t.productId = r.productId := congrArg Prod.fst hkey
    have hk2 : t.locationId = r.locationId := congrArg Prod.snd hkey
    exact ⟨hk1 ▸ hpid, hk2 ▸ hlid⟩
  have hsubkeys : ∀ r ∈ out, r.key ∈ db.stock.map StockRow.key := by
    intro r hr
    have hk : r.key ∈ out.map StockRow.key := List.mem_map_of_mem _ hr
    rw [houtkeys] at hk
    exact (List.Sublist.map StockRow.key (List.filter_sublist _)).subset hk
  have hcreate : createSale sellerId locationId items db =
      (.created 201 db.nextSaleId,
       { db with
         stock := bulkUpsertQuantity out db.stock
         sales := db.sales ++ [{ saleId := db.nextSaleId, sellerId := sellerId,
                                 locationId := locationId, status := .completed }]
         saleItems := db.saleItems ++ items.map (fun item =>
           { saleId := db.nextSaleId, productId := item.productId,
             quantity := item.quantity })
         nextSaleId := db.nextSaleId + 1 },
       [.txnBegin, .readStock, .writeSale, .writeSaleItems, .writeStock]) := by
    rw [createSale, if_neg (by simp [hdup])]
    simp only [hout]
  rw [hcreate]
  refine ⟨rfl, rfl, ?_, rfl, rfl, ?_, ?_, ?_, rfl, rfl⟩
  · intro s hs he
    exact absurd (he ▸ hids s hs) (lt_irrefl _)
  · intro item hmem
    show (bulkUpsertQuantity out db.stock).find?
        (fun r => r.productId == item.productId && r.locationId == locationId) =
      (db.stock.find?
          (fun r => r.productId == item.productId && r.locationId == locationId)).map
        (fun s => { s with quantity := s.quantity - item.quantity })
    rw [bulkUpsertQuantity_find? houtkeysnodup db.stock item.productId locationId]
    have hcongr : out.find?
        (fun r => r.productId == item.productId && r.locationId == locationId) =
        out.find? (fun r => r.productId == item.productId) := by
      apply find?_congr_mem
      intro r hr
      have hl : r.locationId = locationId := (hmemout r hr).2
      simp [hl]
    rw [hcongr, hspec item.productId, items_find?_self hnodup hmem,
      stockLookup_filter db.stock _ locationId item.productId
        (List.mem_map.mpr ⟨item, hmem, rfl⟩)]
    obtain ⟨s, hs, -⟩ := hok item hmem
    rw [hs]
    rfl
  · intro p l hno
    show (bulkUpsertQuantity out db.stock).find?
        (fun r => r.productId == p && r.locationId == l) =
      db.stock.find? (fun r => r.productId == p && r.locationId == l)
    rw [bulkUpsertQuantity_find? houtkeysnodup db.stock p l]
    have hnone : out.find? (fun r => r.productId == p && r.locationId == l) = none := by
      rw [List.find?_eq_none]
      intro r hr hpred
      have h1 := (Bool.and_eq_true _ _).mp hpred
      have hp : r.productId = p := by simpa using h1.1
      have hl : r.locationId = l := by simpa using h1.2
      rcases hmemout r hr with ⟨hpid, hlid⟩
      rcases List.mem_map.mp hpid with ⟨item, hitem, hpeq⟩
      exact hno item hitem ⟨by rw [← hp, hpeq], by rw [← hl, hlid]⟩
    rw [hnone]
  · show (bulkUpsertQuantity out db.stock).map StockRow.key =
      db.stock.map StockRow.key
    exact bulkUpsertQuantity_map_key hsubkeys

/-- Witness for C2: selling 2 of the 5 units of `p1` at `l1` succeeds and
leaves the row at quantity 3. -/
theorem createSale_success_spec_witness :
    (createSale "u1" "l1" [{ productId := "p1", quantity := 2 }] sampleDB).1 =
      SaleResult.created 201 0 ∧
    (createSale "u1" "l1" [{ productId := "p1", quantity := 2 }]
        sampleDB).2.1.stock.find?
        (fun r => r.productId == "p1" && r.locationId == "l1") =
      (sampleDB.stock.find?
          (fun r => r.productId == "p1" && r.locationId == "l1")).map
        (fun s => { s with quantity := s.quantity - 2 }) := by
  have H := createSale_success_spec "u1" "l1"
    [{ productId := "p1", quantity := 2 }] sampleDB (by decide)
    (by intro s hs; cases hs) (by decide)
    (by
      intro item hmem
      rcases List.mem_singleton.mp hmem with rfl
      exact ⟨{ productId := "p1", locationId := "l1", quantity := 5 },
        rfl, by decide⟩)
  refine ⟨H.1, ?_⟩
  exact H.2.2.2.2.2.1 { productId := "p1", quantity := 2 } (by decide)

/-! ## Stock non-negativity preservation (C4) -/

theorem createSale_preserves_nonneg (sellerId locationId : String)
    (list : List SaleListItem) (db : SalesDB) (h0 : nonNegStock db) :
    nonNegStock (createSale sellerId locationId list db).2.1 := by
  rw [createSale]
  by_cases hdup : jsHasDuplicates (list.map (fun item => item.productId)) = true
  · rw [if_pos hdup]; exact h0
  · rw [if_neg hdup]
    cases hval : validateAndDecrement list (db.stock.filter (fun s =>
        (list.map (fun item => item.productId)).contains s.productId &&
        s.locationId == locationId)) with
    | none =>
      simp only [hval]
      exact h0
    | some out =>
      simp only [hval]
      intro s hs
      refine bulkUpsertQuantity_nonneg ?_ h0 s hs
      refine validateAndDecrement_nonneg ?_ hval
      intro t ht
      exact h0 t (List.mem_filter.mp ht).1

theorem updateStock_preserves_nonneg (productId : String)
    (list : List StockUpdateItem) (db : SalesDB) (h0 : nonNegStock db)
    (hq : ∀ item ∈ list, 0 ≤ item.quantity) :
    nonNegStock (updateProductstock productId list db).2.1 := by
  rw [updateProductstock]
  by_cases hdup : jsHasDuplicates (list.map (fun item => item.locationId)) = true
  · rw [if_pos hdup]; exact h0
  · rw [if_neg hdup]
    by_cases hprod : db.products.contains productId
    · rw [if_neg (by simpa using hprod)]
      by_cases hloc : (list.map (fun item => item.locationId)).all
          (fun l => db.locations.contains l)
      · rw [if_neg (by simpa using hloc)]
        intro s hs
        refine bulkUpsertQuantity_nonneg ?_ h0 s hs
        intro r hr
        rcases List.mem_map.mp hr with ⟨item, hitem, rfl⟩
        exact hq item hitem
      · rw [if_pos (by simpa using hloc)]
        exact h0
    · rw [if_pos (by simpa using hprod)]
      exact h0

/-- C4: starting from a state with only non-negative stock quantities,
every state reachable by `createSale` and `updateStock` (with requests
meeting the operations' declared quantity contracts) again has only
non-negative stock quantities: `createSale` rejects any decrement below
zero before writing, and `updateStock` writes only the absolute
non-negative quantities supplied. -/
theorem stock_quantities_nonneg_reachable (db : SalesDB) (ops : List SalesOp)
    (hvalid : ∀ op ∈ ops, opValid op) (h0 : nonNegStock db) :
    nonNegStock (runOps db ops) := by
  induction ops generalizing db with
  | nil => exact h0
  | cons op rest ih =>
    have hstep : nonNegStock (runOp db op) := by
      cases op with
      | createSale sellerId locationId list =>
        exact createSale_preserves_nonneg sellerId locationId list db h0
      | updateStock productId list =>
        exact updateStock_preserves_nonneg productId list db h0
          (hvalid _ (List.mem_cons_self _ _))
    exact ih (runOp db op) (fun o ho => hvalid o (List.mem_cons_of_mem _ ho)) hstep

/-- Concrete operation sequence for the C4 witness: a sale of 2 units of
`p1` at `l1`, then an absolute stock update to 7. -/
def sampleOps : List SalesOp :=
  [.createSale "u1" "l1" [{ productId := "p1", quantity := 2 }],
   .updateStock "p1" [{ locationId := "l1", quantity := 7 }]]

/-- Witness for C4 on a concrete state and operation sequence. -/
theorem stock_quantities_nonneg_reachable_witness :
    nonNegStock (runOps sampleDB sampleOps) :=
  stock_quantities_nonneg_reachable sampleDB sampleOps
    (by
      intro op hop
      rcases List.mem_cons.mp hop with rfl | hop2
      · intro item hitem
        rcases List.mem_singleton.mp hitem with rfl
        decide
      · rcases List.mem_singleton.mp hop2 with rfl
        intro item hitem
        rcases List.mem_singleton.mp hitem with rfl
        decide)
    (by
      intro s hs
      rcases List.mem_singleton.mp hs with rfl
      decide)

/-! ## Authentication claims (C3, C6, C7) -/

/-- A one-user table for the authentication witnesses: `realuser` with
stored hash `hash1` and stored refresh token `rt0` expiring at 1000. -/
def sampleUsers : UsersDB :=
  [{ userId := "u1", username := "realuser", password := "hash1",
     role := .seller, token := some "rt0", tokenExpiresDate := some 1000 }]

/-- C6: a login with an unknown username and a login with a known username
but a non-matching password both return the very same generic
`NotFoundError` (status 404, code UNSPECIFIED, no message, no fields), and
neither modifies any user row. `checkPassword` models `validateData` of
the missing `src/utils/crypto.ts` (constant-time hash comparison). -/
theorem login_non_enumeration
    (checkPassword : String → String → Bool) (sign : String → Role → String)
    (fresh1 fresh2 : String) (now1 now2 ttl1 ttl2 : Nat)
    (uname1 pw1 uname2 pw2 : String) (db : UsersDB)
    (h1 : List.find? (fun u => u.username == uname1) db = none)
    (h2 : ∃ u, List.find? (fun u => u.username == uname2) db = some u ∧
      checkPassword pw2 u.password = false) :
    login checkPassword sign fresh1 now1 ttl1 uname1 pw1 db =
      (.error notFoundErrorDefault, db) ∧
    login checkPassword sign fresh2 now2 ttl2 uname2 pw2 db =
      (.error notFoundErrorDefault, db) ∧
    errorResponseOf notFoundErrorDefault =
      { status := 404, code := .unspecified, message := none, fields := [] } := by
  obtain ⟨u, hf, hpw⟩ := h2
  refine ⟨?_, ?_, rfl⟩
  · rw [login, h1]
  · rw [login]
    simp only [hf, hpw]
    rfl

/-- Witness for C6: `login("nosuchuser", "x")` and
`login("realuser", "wrongpass")` produce identical rejections over
`sampleUsers`, with string equality standing in for the hash check. -/
theorem login_non_enumeration_witness :
    login (fun p h => p == h) (fun u _ => u) "t1" 0 100 "nosuchuser" "x"
        sampleUsers =
      (.error notFoundErrorDefault, sampleUsers) ∧
    login (fun p h => p == h) (fun u _ => u) "t2" 0 100 "realuser" "wrongpass"
        sampleUsers =
      (.error notFoundErrorDefault, sampleUsers) ∧
    errorResponseOf notFoundErrorDefault =
      { status := 404, code := .unspecified, message := none, fields := [] } :=
  login_non_enumeration (fun p h => p == h) (fun u _ => u) "t1" "t2" 0 0 100 100
    "nosuchuser" "x" "realuser" "wrongpass" sampleUsers rfl
    ⟨{ userId := "u1", username := "realuser", password := "hash1",
       role := .seller, token := some "rt0", tokenExpiresDate := some 1000 },
     rfl, rfl⟩

/-- C3: a successful `refresh` overwrites the user's stored refresh token
with the brand-new token (`randomToken` of the missing
`src/utils/crypto.ts`, modelled as producing a token different from the
stored one) and a new expiry; a subsequent `refresh` presenting the
previously stored (now stale) token is rejected with the default
`ForbiddenError` and leaves the table unchanged. -/
theorem refresh_rotation_reuse_rejected
    (verify verify2 : String → Option (String × Role))
    (sign sign2 : String → Role → String)
    (fresh1 fresh2 : String) (now now2 ttl ttl2 : Nat)
    (accessTok accessTok2 rt0 : String) (db : UsersDB)
    (uid : String) (r1 r2 : Role) (u0 : UserRow)
    (hv1 : verify accessTok = some (uid, r1))
    (hfound : List.find? (fun u => u.userId == uid && u.token == some rt0) db =
      some u0)
    (hexp : hasDateExpired now u0.tokenExpiresDate = false)
    (hfresh : fresh1 ≠ rt0)
    (hv2 : verify2 accessTok2 = some (uid, r2)) :
    (refresh verify sign fresh1 now ttl (some accessTok) (some rt0) db).2 =
      db.map (fun u =>
        if u.userId == uid then
          { u with token := some fresh1,
                   tokenExpiresDate := some (getNowAfterSeconds now ttl) }
        else u) ∧
    (∃ s, (refresh verify sign fresh1 now ttl (some accessTok) (some rt0) db).1 =
      .ok s) ∧
    (∀ u ∈ (refresh verify sign fresh1 now ttl (some accessTok) (some rt0) db).2,
      u.userId = uid →
        u.token = some fresh1 ∧
        u.tokenExpiresDate = some (getNowAfterSeconds now ttl)) ∧
    refresh verify2 sign2 fresh2 now2 ttl2 (some accessTok2) (some rt0)
        (refresh verify sign fresh1 now ttl (some accessTok) (some rt0) db).2 =
      (.error forbiddenErrorDefault,
       (refresh verify sign fresh1 now ttl (some accessTok) (some rt0) db).2) := by
  have hpred := List.find?_some hfound
  have hu0id : u0.userId = uid := by
    have := (Bool.and_eq_true _ _).mp hpred
    simpa using this.1
  have hrun1 : refresh verify sign fresh1 now ttl (some accessTok) (some rt0) db =
      (.ok ⟨u0.userId,
        ⟨accessCookieName, sign u0.userId u0.role, ttl * 1000⟩,
        ⟨refreshCookieName, fresh1, ttl * 1000⟩⟩,
       db.map (fun u =>
         if u.userId == u0.userId then
           { u with token := some fresh1,
                    tokenExpiresDate := some (getNowAfterSeconds now ttl) }
         else u)) := by
    rw [refresh]
    simp only [hv1, hfound, hexp]
    rfl
  rw [hu0id] at hrun1
  have hnone2 : List.find? (fun u => u.userId == uid && u.token == some rt0)
      (db.map (fun u =>
        if u.userId == uid then
          { u with token := some fresh1,
                   tokenExpiresDate := some (getNowAfterSeconds now ttl) }
        else u)) = none := by
    rw [List.find?_eq_none]
    intro y hy hpredy
    rcases List.mem_map.mp hy with ⟨x, hx, rfl⟩
    by_cases hxu : (x.userId == uid) = true
    · rw [if_pos hxu] at hpredy
      have h2 := (Bool.and_eq_true _ _).mp hpredy
      have : fresh1 = rt0 := by simpa using h2.2
      exact hfresh this
    · rw [if_neg hxu] at hpredy
      have h2 := (Bool.and_eq_true _ _).mp hpredy
      exact hxu h2.1
  refine ⟨by rw [hrun1], ⟨_, by rw [hrun1]⟩, ?_, ?_⟩
  · intro u hu huid
    rw [hrun1] at hu
    rcases List.mem_map.mp hu with ⟨x, hx, rfl⟩
    by_cases hxu : (x.userId == uid) = true
    · rw [if_pos hxu]
      exact ⟨rfl, rfl⟩
    · rw [if_neg hxu] at huid ⊢
      exact absurd (by simp [huid]) hxu
  · rw [hrun1]
    rw [refresh]
    simp only [hv2, hnone2]

/-- Witness for C3: rotating `rt0` to `rt1` for `realuser`, then replaying
`rt0`. -/
theorem refresh_rotation_reuse_rejected_witness :
    (refresh (fun _ => some ("u1", Role.seller)) (fun u _ => u) "rt1" 10 100
        (some "at") (some "rt0") sampleUsers).2 =
      sampleUsers.map (fun u =>
        if u.userId == "u1" then
          { u with token := some "rt1",
                   tokenExpiresDate := some (getNowAfterSeconds 10 100) }
        else u) ∧
    (∃ s, (refresh (fun _ => some ("u1", Role.seller)) (fun u _ => u) "rt1" 10 100
        (some "at") (some "rt0") sampleUsers).1 = .ok s) ∧
    (∀ u ∈ (refresh (fun _ => some ("u1", Role.seller)) (fun u _ => u) "rt1" 10 100
        (some "at") (some "rt0") sampleUsers).2,
      u.userId = "u1" →
        u.token = some "rt1" ∧
        u.tokenExpiresDate = some (getNowAfterSeconds 10 100)) ∧
    refresh (fun _ => some ("u1", Role.seller)) (fun u _ => u) "rt2" 20 100
        (some "at2") (some "rt0")
        (refresh (fun _ => some ("u1", Role.seller)) (fun u _ => u) "rt1" 10 100
          (some "at") (some "rt0") sampleUsers).2 =
      (.error forbiddenErrorDefault,
       (refresh (fun _ => some ("u1", Role.seller)) (fun u _ => u) "rt1" 10 100
         (some "at") (some "rt0") sampleUsers).2) :=
  refresh_rotation_reuse_rejected
    (fun _ => some ("u1", Role.seller)) (fun _ => some ("u1", Role.seller))
    (fun u _ => u) (fun u _ => u) "rt1" "rt2" 10 20 100 100 "at" "at2" "rt0"
    sampleUsers "u1" Role.seller Role.seller
    { userId := "u1", username := "realuser", password := "hash1",
      role := .seller, token := some "rt0", tokenExpiresDate := some 1000 }
    rfl rfl (by decide) (by decide) rfl

/-- C7: `logout` always reports success (status 204) and clears both
cookies, for every input — missing cookie, undecodable token, unknown
user, storage failure — and on repeated calls; when the access token
decodes (ignoring expiration) to a userId and storage works, every row
with that userId has its stored refresh token and expiry set to null. -/
theorem logout_best_effort
    (decode : String → Option String) (storageOk : Bool)
    (accessToken? : Option String) (db : UsersDB) :
    (logout decode storageOk accessToken? db).status = 204 ∧
    (logout decode storageOk accessToken? db).clearedCookies =
      [accessCookieName, refreshCookieName] ∧
    (∀ tok uid, accessToken? = some tok → decode tok = some uid →
      storageOk = true →
      ∀ u ∈ (logout decode storageOk accessToken? db).db, u.userId = uid →
        u.token = none ∧ u.tokenExpiresDate = none) ∧
    (∀ storageOk2 : Bool,
      (logout decode storageOk2 accessToken?
        (logout decode storageOk accessToken? db).db).status = 204) := by
  refine ⟨rfl, rfl, ?_, fun _ => rfl⟩
  rintro tok uid rfl hdec rfl u hu huid
  simp only [logout, hdec] at hu
  cases hf : List.find? (fun x => x.userId == uid) db with
  | none =>
    simp only [hf] at hu
    have := List.find?_eq_none.mp hf u hu
    exact absurd (by simp [huid]) this
  | some w =>
    simp only [hf] at hu
    rcases List.mem_map.mp hu with ⟨x, hx, rfl⟩
    by_cases hxu : (x.userId == uid) = true
    · rw [if_pos hxu]
      exact ⟨rfl, rfl⟩
    · rw [if_neg hxu] at huid ⊢
      exact absurd (by simp [huid]) hxu

/-- Witness for C7 on concrete inputs over `sampleUsers`. -/
theorem logout_best_effort_witness :
    (logout (fun _ => some "u1") true (some "tok") sampleUsers).status = 204 ∧
    (logout (fun _ => some "u1") true (some "tok") sampleUsers).clearedCookies =
      [accessCookieName, refreshCookieName] ∧
    (∀ tok uid, (some "tok" : Option String) = some tok →
      (fun _ : String => some "u1") tok = some uid → true = true →
      ∀ u ∈ (logout (fun _ => some "u1") true (some "tok") sampleUsers).db,
        u.userId = uid → u.token = none ∧ u.tokenExpiresDate = none) ∧
    (∀ storageOk2 : Bool,
      (logout (fun _ => some "u1") storageOk2 (some "tok")
        (logout (fun _ => some "u1") true (some "tok") sampleUsers).db).status =
        204) :=
  logout_best_effort (fun _ => some "u1") true (some "tok") sampleUsers

/-! ## Category satellite rows (C9) -/

/-- The empty catalog. -/
def emptyCatalog : CatalogDB :=
  { products := [], tshirtRows := [], bagRows := [], bookRows := [],
    nextProductId := 0 }

/-- C9 fails on `createBook`: for any book-creation request (here a
concrete one on the empty catalog), exactly one satellite row is created
and it lands in the `Book` table, but the product row is stored with
category `bag` — line 551 of `src/products/productsController.ts` passes
`ProductCategory.BAG` to `createProduct`. `createTshirt` and `createBag`
do store the matching category. -/
theorem createBook_satellite_category_mismatch :
    ((createBook { name := "b", description := "d", price := 100 }
        emptyCatalog).2.products.map (fun p => p.category) =
      [ProductCategory.bag]) ∧
    satelliteTablesOf
        (createBook { name := "b", description := "d", price := 100 }
          emptyCatalog).2
        (createBook { name := "b", description := "d", price := 100 }
          emptyCatalog).1 =
      [ProductCategory.book] ∧
    ((createTshirt { name := "t", description := "d", price := 100 }
        emptyCatalog).2.products.map (fun p => p.category) =
      [ProductCategory.tshirt]) ∧
    satelliteTablesOf
        (createTshirt { name := "t", description := "d", price := 100 }
          emptyCatalog).2
        (createTshirt { name := "t", description := "d", price := 100 }
          emptyCatalog).1 =
      [ProductCategory.tshirt] ∧
    ((createBag { name := "g", description := "d", price := 100 }
        emptyCatalog).2.products.map (fun p => p.category) =
      [ProductCategory.bag]) ∧
    satelliteTablesOf
        (createBag { name := "g", description := "d", price := 100 }
          emptyCatalog).2
        (createBag { name := "g", description := "d", price := 100 }
          emptyCatalog).1 =
      [ProductCategory.bag] := by
  refine ⟨rfl, rfl, rfl, rfl, rfl, rfl⟩

end IndieLisboa
